import Mathlib

/-!
Verification of the esp_dmx RDM core (rdm/utils.c).

A shallow embedding of the RDM wire codec, UID algebra, frame I/O and
transaction engine of the esp_dmx fork, together with theorems settling the
frozen claims about them.

Byte buffers are modelled as functions `Nat → Nat`; every read goes through
`byteAt`, which truncates to a `uint8_t` value, so stores may keep raw values.
Machine integers are `Nat`/`Int` with explicit `% 2^w` where overflow matters.
Recursions carry an explicit structural fuel argument (always instantiated
large enough that it never runs out) so that all definitions reduce in the
kernel.
-/

set_option maxHeartbeats 1000000
set_option maxRecDepth 10000
set_option linter.unusedVariables false

/-- A byte buffer: raw memory addressed by offsets. All reads are through
`byteAt`, which truncates to a byte, modelling `uint8_t` storage. -/
def ByteBuf : Type := Nat → Nat

/-- The all-zeros buffer. -/
def zeroBuf : ByteBuf := fun _ => 0

/-- Read one `uint8_t` from the buffer. -/
def byteAt (b : ByteBuf) (i : Nat) : Nat := b i % 256

/-- Store one byte at offset `i`. -/
def setByte (b : ByteBuf) (i v : Nat) : ByteBuf :=
  fun j => if j = i then v else b j

/-- Source `memmove(dst + dstOff, src + srcOff, n)` on byte buffers. -/
def copyBytes (dst : ByteBuf) (dstOff : Nat) (src : ByteBuf) (srcOff n : Nat) :
    ByteBuf :=
  fun j => if dstOff ≤ j ∧ j < dstOff + n then src (srcOff + (j - dstOff)) else dst j

/-- Little-endian `uint16_t` load, as done by `*(uint16_t *)p` on the target. -/
def u16le (b : ByteBuf) (i : Nat) : Nat := byteAt b i + 256 * byteAt b (i + 1)

/-- Little-endian `uint32_t` load. -/
def u32le (b : ByteBuf) (i : Nat) : Nat :=
  byteAt b i + 256 * byteAt b (i + 1) + 65536 * byteAt b (i + 2) +
    16777216 * byteAt b (i + 3)

/-- Source `bswap16`: swap the two bytes of a 16-bit value. -/
def bswap16 (x : Nat) : Nat := (x % 256) * 256 + (x / 256) % 256

/-- Sum of `byteAt b i` for `i ∈ [lo, hi)`, the shape of the C checksum loops. -/
def sumBytes (b : ByteBuf) (lo hi : Nat) : Nat :=
  ((List.range' lo (hi - lo)).map (byteAt b)).sum

/-- Source `strnlen(src + off, m)`: number of bytes before the first NUL, capped at `m`. -/
def strnlen (src : ByteBuf) : Nat → Nat → Nat
  | _, 0 => 0
  | off, m + 1 => if byteAt src off = 0 then 0 else 1 + strnlen src (off + 1) m

/-- Decimal value of a digit run, as consumed by `atoi` / `strtol(_, _, 10)`. -/
def decVal (l : List Char) : Nat := l.foldl (fun a c => a * 10 + (c.toNat - 48)) 0

/-- Source `isxdigit` on a format character. -/
def isHexDigitChar (c : Char) : Bool :=
  c.isDigit || (decide ('a' ≤ c) && decide (c ≤ 'f')) ||
    (decide ('A' ≤ c) && decide (c ≤ 'F'))

/-- Value of one hex digit. -/
def hexDigitVal (c : Char) : Nat :=
  if c.isDigit then c.toNat - 48
  else if decide ('a' ≤ c) && decide (c ≤ 'f') then c.toNat - 87
  else c.toNat - 55

/-- Hex value of a digit run, as consumed by `strtol(_, _, 16)`. -/
def hexVal (l : List Char) : Nat := l.foldl (fun a c => a * 16 + hexDigitVal c) 0

/-- Writes byte `j` of the literal loop of `pd_emplace` for `j < count`:
`dst[n + j] = ((uint8_t *)&literal)[llen - 1 - j]`, i.e. the bytes of `lit`
most-significant first. -/
def writeLitAux (dst : ByteBuf) (n lit llen : Nat) : Nat → ByteBuf
  | 0 => dst
  | j + 1 => setByte (writeLitAux dst n lit llen j) (n + j) (lit / 256 ^ (llen - 1 - j) % 256)

/-- Write the `llen` low-order bytes of `lit` big-endian at offset `n`
(the literal-emitting loop of `pd_emplace`). -/
def writeLit (dst : ByteBuf) (n lit llen : Nat) : ByteBuf :=
  writeLitAux dst n lit llen llen

/-- A 48-bit RDM unique identifier: 16-bit manufacturer id and 32-bit device id
(`rdm_uid_t`). -/
structure RdmUid where
  man_id : Nat
  dev_id : Nat
deriving DecidableEq, Repr

/-- Source `uid_is_eq`. -/
def uid_is_eq (a b : RdmUid) : Bool :=
  a.man_id == b.man_id && a.dev_id == b.dev_id

/-- Source `uid_is_lt`: lexicographic on `(man_id, dev_id)`. -/
def uid_is_lt (a b : RdmUid) : Bool :=
  a.man_id < b.man_id || (a.man_id == b.man_id && a.dev_id < b.dev_id)

/-- Source `uid_is_broadcast`: the device id is all ones. -/
def uid_is_broadcast (u : RdmUid) : Bool := u.dev_id == 4294967295

/-- Source `uid_is_null`. -/
def uid_is_null (u : RdmUid) : Bool := u.man_id == 0 && u.dev_id == 0

/-- Source `uid_is_target`: `alias` is a broadcast covering `uid`, or equals it. -/
def uid_is_target (uid alias' : RdmUid) : Bool :=
  ((alias'.man_id == 65535 || alias'.man_id == uid.man_id) &&
      alias'.dev_id == 4294967295) ||
    uid_is_eq uid alias'

/-- Source `RDM_SC`: the RDM start code. -/
def RDM_SC : Nat := 0xCC

/-- Source `RDM_SUB_SC`: the RDM sub start code. -/
def RDM_SUB_SC : Nat := 0x01

/-- Source `RDM_PREAMBLE`: discovery-response preamble byte. -/
def RDM_PREAMBLE : Nat := 0xFE

/-- Source `RDM_DELIMITER`: discovery-response preamble delimiter. -/
def RDM_DELIMITER : Nat := 0xAA

/-- Source `RDM_CC_DISC_COMMAND`. -/
def RDM_CC_DISC_COMMAND : Nat := 0x10

/-- Source `RDM_CC_DISC_COMMAND_RESPONSE`. -/
def RDM_CC_DISC_COMMAND_RESPONSE : Nat := 0x11

/-- Source `RDM_CC_GET_COMMAND`. -/
def RDM_CC_GET_COMMAND : Nat := 0x20

/-- Source `RDM_CC_SET_COMMAND`. -/
def RDM_CC_SET_COMMAND : Nat := 0x30

/-- Source `RDM_SUB_DEVICE_ALL`. -/
def RDM_SUB_DEVICE_ALL : Nat := 0xFFFF

/-- Source `RDM_SUB_DEVICE_ROOT`. -/
def RDM_SUB_DEVICE_ROOT : Nat := 0

/-- Modelled from the spec: `rdm/types.h` is not under `src/`; the spec names
`DISC_UNIQUE_BRANCH` as the discovery PID (§8) without a numeric value, so the
standard value is used. -/
def RDM_PID_DISC_UNIQUE_BRANCH : Nat := 0x0001

/-- Modelled from the spec: `rdm/types.h` is not under `src/`. The spec (§8,
scenario 3) fixes `NACK_REASON = 0x03`; `ACK` and `ACK_TIMER` keep their
standard wire values and the remaining classifications are distinct
out-of-band values. `RDM_RESPONSE_TYPE_ACK = 0x00`. -/
def RDM_RESPONSE_TYPE_ACK : Nat := 0x00

/-- Source `RDM_RESPONSE_TYPE_ACK_TIMER = 0x01`. -/
def RDM_RESPONSE_TYPE_ACK_TIMER : Nat := 0x01

/-- Source `RDM_RESPONSE_TYPE_ACK_OVERFLOW` (value chosen distinct; see
`RDM_RESPONSE_TYPE_ACK`). -/
def RDM_RESPONSE_TYPE_ACK_OVERFLOW : Nat := 0x02

/-- Source `RDM_RESPONSE_TYPE_NACK_REASON = 0x03` per the spec. -/
def RDM_RESPONSE_TYPE_NACK_REASON : Nat := 0x03

/-- Source `RDM_RESPONSE_TYPE_NONE` (out-of-band classification). -/
def RDM_RESPONSE_TYPE_NONE : Nat := 0xFE

/-- Source `RDM_RESPONSE_TYPE_INVALID` (out-of-band classification). -/
def RDM_RESPONSE_TYPE_INVALID : Nat := 0xFF

/-- Source `RDM_UID_NULL`. -/
def RDM_UID_NULL : RdmUid := ⟨0, 0⟩

/-- The body of `rdm_param_parse`: walk the format string accumulating
`param_size` (as `acc`) and the `is_singleton` flag. Error branches return `0`
(or `-1` for a variable-length string not at the end, exactly as the source
does). The first argument is structural fuel, always called with more fuel
than characters so the `0` case is unreachable. Where the source advances `f`
to the `strtol` end pointer, the subsequent `++f` of the `for` loop skips one more
character, which the recursion reproduces with `List.drop 1`; when that lands
past the end of the string the C code would read past the terminator, a latent
defect that is unreachable from the formats the callers use. -/
def parseLoopF : Nat → List Char → Nat → Bool → Int × Bool
  | 0, _, _, sing => (0, sing)
  | _ + 1, [], acc, sing => ((acc : Int), sing)
  | fuel + 1, c :: rest, acc, sing =>
    if c = 'b' ∨ c = 'B' then
      if acc + 1 > 231 then (0, sing) else parseLoopF fuel rest (acc + 1) sing
    else if c = 'w' ∨ c = 'W' then
      if acc + 2 > 231 then (0, sing) else parseLoopF fuel rest (acc + 2) sing
    else if c = 'd' ∨ c = 'D' then
      if acc + 4 > 231 then (0, sing) else parseLoopF fuel rest (acc + 4) sing
    else if c = 'u' ∨ c = 'U' then
      if acc + 6 > 231 then (0, sing) else parseLoopF fuel rest (acc + 6) sing
    else if c = 'v' ∨ c = 'V' then
      if rest ≠ [] ∧ rest.head? ≠ some '$' then (0, sing)
      else if acc + 6 > 231 then (0, true) else parseLoopF fuel rest (acc + 6) true
    else if c = 'a' ∨ c = 'A' then
      let ds := rest.takeWhile Char.isDigit
      if ds ≠ [] then
        let fs := decVal ds
        if fs = 0 then (0, sing)
        else if fs > 231 - acc then (0, sing)
        else if acc + fs > 231 then (0, sing)
        else parseLoopF fuel ((rest.drop ds.length).drop 1) (acc + fs) sing
      else
        if rest ≠ [] ∧ rest.head? ≠ some '$' then (-1, sing)
        else if acc + 32 > 231 then (0, true) else parseLoopF fuel rest (acc + 32) true
    else if c = '#' then
      let ds := rest.takeWhile isHexDigitChar
      if ds.length > 16 then (0, sing)
      else
        let fs := ds.length / 2 + ds.length % 2
        let rest2 := rest.drop ds.length
        if ¬(rest2.head? = some 'h' ∨ rest2.head? = some 'H') then (0, sing)
        else if acc + fs > 231 then (0, sing)
        else parseLoopF fuel (rest2.drop 1) (acc + fs) sing
    else if c = '$' then
      if rest ≠ [] then (0, sing)
      else if acc + 0 > 231 then (0, true) else parseLoopF fuel rest (acc + 0) true
    else (0, sing)

/-- Source `rdm_param_parse(format, &is_singleton)`: returns the in-band result
(`param_size`, or `0`/`-1` on error) and the `is_singleton` out-parameter,
initialised to whether the format is empty. -/
def rdm_param_parse (fmt : List Char) : Int × Bool :=
  parseLoopF (fmt.length + 1) fmt 0 fmt.isEmpty


/-- Source `uidmove(destination + n, source + n)` at byte level: `uidmove` copies the
`rdm_uid_t` and delegates to `uidcpy`, which byte-swaps the 16-bit `man_id`
and the 32-bit `dev_id` between the little-endian struct and the big-endian
wire form. -/
def uidmoveAt (dst : ByteBuf) (src : ByteBuf) (n : Nat) : ByteBuf :=
  setByte (setByte (setByte (setByte (setByte (setByte dst
    n (byteAt src (n + 1)))
    (n + 1) (byteAt src n))
    (n + 2) (byteAt src (n + 5)))
    (n + 3) (byteAt src (n + 4)))
    (n + 4) (byteAt src (n + 3)))
    (n + 5) (byteAt src (n + 2))

/-- One pass of the inner field-walk of `pd_emplace` over the format string,
threading the destination buffer and the offset `n` (which indexes both
`destination + n` and `source + n`, as in the source). The third component is
true when the pass ended through the optional-UID `break`. Characters matching
no field branch (digits after `a`, the `h` after a literal, `$`, unknown
symbols) fall through the `else if` chain and are skipped. The first argument
is structural fuel (instantiated above the format length, so never exhausted).
In the `#` branch the `strtol` value is clamped to `LONG_MAX` of the 32-bit
target, and `f = end_ptr; ++f` is the trailing `List.drop 1`; the size_t
subtractions of the variable-string branch wrap modulo `2^64`. -/
def passF (src : ByteBuf) (size : Nat) (en : Bool) :
    Nat → List Char → ByteBuf → Nat → ByteBuf × Nat × Bool
  | 0, _, dst, n => (dst, n, false)
  | _ + 1, [], dst, n => (dst, n, false)
  | fuel + 1, c :: rest, dst, n =>
    if c = 'b' ∨ c = 'B' then
      passF src size en fuel rest (setByte dst n (byteAt src n)) (n + 1)
    else if c = 'w' ∨ c = 'W' then
      passF src size en fuel rest
        (setByte (setByte dst n (byteAt src (n + 1))) (n + 1) (byteAt src n)) (n + 2)
    else if c = 'd' ∨ c = 'D' then
      passF src size en fuel rest
        (setByte (setByte (setByte (setByte dst
          n (byteAt src (n + 3))) (n + 1) (byteAt src (n + 2)))
          (n + 2) (byteAt src (n + 1))) (n + 3) (byteAt src n)) (n + 4)
    else if c = 'u' ∨ c = 'U' ∨ c = 'v' ∨ c = 'V' then
      if (c = 'v' ∨ c = 'V') ∧ en = false ∧ u16le src n = 0 ∧ u32le src (n + 2) = 0 then
        (dst, n, true)
      else passF src size en fuel rest (uidmoveAt dst src n) (n + 6)
    else if c = 'a' ∨ c = 'A' then
      let len0 := decVal (rest.takeWhile Char.isDigit)
      let len :=
        if len0 = 0 then
          let str_size :=
            (size + 18446744073709551616 - (if en then 1 else 0)) % 18446744073709551616
          let dlen := (str_size + 18446744073709551616 - n) % 18446744073709551616
          strnlen src n (if dlen < 32 then dlen else 32)
        else len0
      let dst2 := copyBytes dst n src n len
      if en then passF src size en fuel rest (setByte dst2 len 0) (n + 1 + len)
      else passF src size en fuel rest dst2 (n + len)
    else if c = '#' then
      let ds := rest.takeWhile isHexDigitChar
      let lit := min (hexVal ds) 2147483647
      let llen := ds.length / 2 + ds.length % 2
      passF src size en fuel ((rest.drop ds.length).drop 1)
        (writeLit dst n lit llen) (n + llen)
    else passF src size en fuel rest dst n

/-- The outer iteration of `pd_emplace`: run the field-walk
`num_params_to_copy` times. A `break` out of the inner walk does not stop the
outer loop (matching the source, where `break` only leaves the inner `for`). -/
def emplaceIters (src : ByteBuf) (size : Nat) (en : Bool) (fmt : List Char) :
    Nat → ByteBuf → Nat → ByteBuf × Nat
  | 0, dst, n => (dst, n)
  | i + 1, dst, n =>
    let r := passF src size en (fmt.length + 1) fmt dst n
    emplaceIters src size en fmt i r.1 r.2.1

/-- Source `pd_emplace(destination, dest_size, format, source, src_size,
encode_nulls)`: clamp `src_size` to 231, validate the format (returning
`(destination, 0)` untouched when `param_size < 1`, which also covers the
`-1`-returning parse branch), then emit `num_params_to_copy` passes. -/
def pd_emplace (dst : ByteBuf) (dest_size : Nat) (fmt : List Char)
    (src : ByteBuf) (src_size : Nat) (en : Bool) : ByteBuf × Nat :=
  let src_size' := min src_size 231
  let pr := rdm_param_parse fmt
  if pr.1 < 1 then (dst, 0)
  else
    let ps := pr.1.toNat
    let size := min dest_size src_size'
    let iters := if pr.2 then 1 else size / ps
    emplaceIters src size en fmt iters dst 0


/-- The preamble loop of `uid_encode`: write `k` bytes of `RDM_PREAMBLE`
starting at offset 0. -/
def writePre (b : ByteBuf) : Nat → ByteBuf
  | 0 => b
  | k + 1 => setByte (writePre b k) k RDM_PREAMBLE

/-- Source `uid_encode(destination, uid, preamble_len)`: clamp the preamble to 7,
write preamble and delimiter, the 12 doubled EUID bytes (each UID byte `x`
big-endian first becomes `x | 0xAA` then `x | 0x55`), then the doubled
checksum of the 12 EUID bytes. Returns the updated buffer and
`preamble_len + 1 + 16`. The checksum reads back the just-stored bytes; they
are their own stored values, written here directly. -/
def uid_encode (dst : ByteBuf) (uid : RdmUid) (preamble_len : Nat) :
    ByteBuf × Nat :=
  let pl := if preamble_len > 7 then 7 else preamble_len
  let d0 := setByte (writePre dst pl) pl RDM_DELIMITER
  let m1 := uid.man_id / 256 % 256
  let m0 := uid.man_id % 256
  let v3 := uid.dev_id / 16777216 % 256
  let v2 := uid.dev_id / 65536 % 256
  let v1 := uid.dev_id / 256 % 256
  let v0 := uid.dev_id % 256
  let e := pl + 1
  let d1 := setByte (setByte d0 e (m1 ||| 0xaa)) (e + 1) (m1 ||| 0x55)
  let d2 := setByte (setByte d1 (e + 2) (m0 ||| 0xaa)) (e + 3) (m0 ||| 0x55)
  let d3 := setByte (setByte d2 (e + 4) (v3 ||| 0xaa)) (e + 5) (v3 ||| 0x55)
  let d4 := setByte (setByte d3 (e + 6) (v2 ||| 0xaa)) (e + 7) (v2 ||| 0x55)
  let d5 := setByte (setByte d4 (e + 8) (v1 ||| 0xaa)) (e + 9) (v1 ||| 0x55)
  let d6 := setByte (setByte d5 (e + 10) (v0 ||| 0xaa)) (e + 11) (v0 ||| 0x55)
  let cks := ((m1 ||| 0xaa) + (m1 ||| 0x55) + (m0 ||| 0xaa) + (m0 ||| 0x55) +
      (v3 ||| 0xaa) + (v3 ||| 0x55) + (v2 ||| 0xaa) + (v2 ||| 0x55) +
      (v1 ||| 0xaa) + (v1 ||| 0x55) + (v0 ||| 0xaa) + (v0 ||| 0x55)) % 65536
  let d7 := setByte (setByte d6 (e + 12) (cks / 256 ||| 0xaa))
      (e + 13) (cks / 256 ||| 0x55)
  let d8 := setByte (setByte d7 (e + 14) (cks % 256 ||| 0xaa))
      (e + 15) (cks % 256 ||| 0x55)
  (d8, pl + 1 + 16)

/-- The scan of `get_preamble_len`: advance `k` while `k ≤ 7` until a
delimiter byte is found; the fuel of 8 realises the `preamble_len <= 7` bound,
so the exhausted case returns `k = 8`. -/
def gplLoop : Nat → Nat → ByteBuf → Nat
  | 0, k, _ => k
  | fuel + 1, k, b => if byteAt b k = RDM_DELIMITER then k else gplLoop fuel (k + 1) b

/-- Source `get_preamble_len(data)`: offset of the first delimiter within the first
8 bytes, or 8 when there is none. -/
def get_preamble_len (b : ByteBuf) : Nat := gplLoop 8 0 b

/-- Source `uid_decode(uid, source, size)`: `none` models the `return 0` branches
(with the out-parameter untouched); on success the decoded UID and the
consumed length `preamble_len + 1 + 16` are returned. Each UID byte is the
AND of its doubled pair; `uidcpy` then byte-swaps into the struct, i.e. the
six bytes are read big-endian. -/
def uid_decode (src : ByteBuf) (size : Nat) : Option (RdmUid × Nat) :=
  if size < 17 then none
  else
    let pl := get_preamble_len src
    if pl > 7 ∨ size < pl + 17 then none
    else
      let b0 := byteAt src (pl + 1) &&& byteAt src (pl + 2)
      let b1 := byteAt src (pl + 3) &&& byteAt src (pl + 4)
      let b2 := byteAt src (pl + 5) &&& byteAt src (pl + 6)
      let b3 := byteAt src (pl + 7) &&& byteAt src (pl + 8)
      let b4 := byteAt src (pl + 9) &&& byteAt src (pl + 10)
      let b5 := byteAt src (pl + 11) &&& byteAt src (pl + 12)
      some (⟨256 * b0 + b1, 16777216 * b2 + 65536 * b3 + 256 * b4 + b5⟩,
        pl + 1 + 16)


/-- Modelled from the spec: `rdm_header_t` (from `rdm/types.h`, not under
`src/`) is the 24-byte packed wire-ordered message envelope of §3. The three
leading bytes (start code, sub start code, message length) exist in the
struct — the serialization format covers their offsets with literals — and
`port_id` and `response_type` overload one byte (`RdmHeader.response_type`
below). Fields are `Nat` values of their C integer types. -/
structure RdmHeader where
  sc : Nat
  sub_sc : Nat
  message_len : Nat
  dest_uid : RdmUid
  src_uid : RdmUid
  tn : Nat
  port_id : Nat
  message_count : Nat
  sub_device : Nat
  cc : Nat
  pid : Nat
  pdl : Nat
deriving DecidableEq, Repr

/-- The `response_type` union member: the same byte as `port_id`. -/
def RdmHeader.response_type (h : RdmHeader) : Nat := h.port_id

/-- The in-memory byte image of a packed `rdm_header_t` on the little-endian
target: multi-byte fields (`man_id`, `dev_id`, `sub_device`, `pid`) are stored
little-endian. Offsets follow the `#cc01#18huubbbwbw` field layout. -/
def headerToBytes (h : RdmHeader) : ByteBuf := fun i =>
  if i = 0 then h.sc
  else if i = 1 then h.sub_sc
  else if i = 2 then h.message_len
  else if i = 3 then h.dest_uid.man_id % 256
  else if i = 4 then h.dest_uid.man_id / 256 % 256
  else if i = 5 then h.dest_uid.dev_id % 256
  else if i = 6 then h.dest_uid.dev_id / 256 % 256
  else if i = 7 then h.dest_uid.dev_id / 65536 % 256
  else if i = 8 then h.dest_uid.dev_id / 16777216 % 256
  else if i = 9 then h.src_uid.man_id % 256
  else if i = 10 then h.src_uid.man_id / 256 % 256
  else if i = 11 then h.src_uid.dev_id % 256
  else if i = 12 then h.src_uid.dev_id / 256 % 256
  else if i = 13 then h.src_uid.dev_id / 65536 % 256
  else if i = 14 then h.src_uid.dev_id / 16777216 % 256
  else if i = 15 then h.tn
  else if i = 16 then h.port_id
  else if i = 17 then h.message_count
  else if i = 18 then h.sub_device % 256
  else if i = 19 then h.sub_device / 256 % 256
  else if i = 20 then h.cc
  else if i = 21 then h.pid % 256
  else if i = 22 then h.pid / 256 % 256
  else if i = 23 then h.pdl
  else 0

/-- Read a packed `rdm_header_t` back from its byte image (the inverse view of
`headerToBytes`, little-endian fields). -/
def bytesToHeader (b : ByteBuf) : RdmHeader where
  sc := byteAt b 0
  sub_sc := byteAt b 1
  message_len := byteAt b 2
  dest_uid := ⟨byteAt b 3 + 256 * byteAt b 4, u32le b 5⟩
  src_uid := ⟨byteAt b 9 + 256 * byteAt b 10, u32le b 11⟩
  tn := byteAt b 15
  port_id := byteAt b 16
  message_count := byteAt b 17
  sub_device := byteAt b 18 + 256 * byteAt b 19
  cc := byteAt b 20
  pid := byteAt b 21 + 256 * byteAt b 22
  pdl := byteAt b 23

/-- All header fields fit their C integer types. -/
def RdmHeader.wf (h : RdmHeader) : Prop :=
  h.sc < 256 ∧ h.sub_sc < 256 ∧ h.message_len < 256 ∧
    h.dest_uid.man_id < 65536 ∧ h.dest_uid.dev_id < 4294967296 ∧
    h.src_uid.man_id < 65536 ∧ h.src_uid.dev_id < 4294967296 ∧
    h.tn < 256 ∧ h.port_id < 256 ∧ h.message_count < 256 ∧
    h.sub_device < 65536 ∧ h.cc < 256 ∧ h.pid < 65536 ∧ h.pdl < 256

/-- The fixed header serialization format of `rdm_write` / `rdm_read`. -/
def headerFormat : List Char := "#cc01#18huubbbwbw".toList

/-- The per-port driver state used by the frame I/O and the transaction
engine: the shared tx/rx `data.buffer`, the `is_sending` flag, the transaction
number `driver->rdm.tn`, the transmit size, the UART RTS latch and the port
UID (the UID source lives outside the core; spec §3/§5). -/
structure DmxDriver where
  buffer : ByteBuf
  is_sending : Bool
  tn : Nat
  tx_size : Nat
  uart_rts : Nat
  uid : RdmUid

/-- Source `rdm_write(dmx_num, header, pdl, pd)`: the argument checks, the
`is_sending` fast-fail, the RTS turnaround, header emplacement into
`buffer[0..]`, the pd copy at offset 25, the `message_len`/`pdl` slots, the
checksum over `buffer[2 .. message_len)` seeded with `RDM_SC + RDM_SUB_SC`,
stored big-endian at `buffer[message_len]`, and the returned
`*message_len_ptr + 2` (re-read after the checksum store, as in the source).
`none` arguments model NULL pointers; the port-index and driver-installed
checks are environment guarantees (§3: the core assumes the port exists).
The `uint16_t` checksum cannot wrap (at most 253 byte terms plus 0xCD), so a
single final `% 65536` is faithful. -/
def rdm_write (drv : DmxDriver) (header : Option RdmHeader) (pdl : Nat)
    (pd : Option ByteBuf) : Nat × DmxDriver :=
  if ¬(pdl ≤ 231 ∧ ¬(pd.isNone ∧ pdl > 0)) then (0, drv)
  else if ¬(header.isSome ∨ (pd.isSome ∧ pdl > 0)) then (0, drv)
  else if drv.is_sending then (0, drv)
  else
    let drv1 := if drv.uart_rts = 1 then { drv with uart_rts := 0 } else drv
    let src : ByteBuf := match header with
      | some h => headerToBytes h
      | none => zeroBuf
    let buf1 := (pd_emplace drv1.buffer 513 headerFormat src 24 false).1
    let buf2 := match pd with
      | some p => copyBytes buf1 25 p 0 pdl
      | none => buf1
    let ml := (byteAt buf2 2 + pdl) % 256
    let buf3 := setByte buf2 2 ml
    let buf4 := setByte buf3 24 pdl
    let cks := (RDM_SC + RDM_SUB_SC + sumBytes buf4 2 ml) % 65536
    let buf5 := setByte buf4 ml (cks / 256)
    let buf6 := setByte buf5 (ml + 1) (cks % 256)
    let written := byteAt buf6 2 + 2
    (written, { drv1 with buffer := buf6, tx_size := written })

/-- The outputs of `rdm_read`: the return value and the three out-parameters
(returned unchanged when the frame is rejected). -/
structure ReadResult where
  ret : Nat
  header : Option RdmHeader
  pdl : Option Nat
  pd : Option ByteBuf

/-- Source `rdm_read(dmx_num, header, pdl, pd)`: verify start and sub-start code with
one little-endian 16-bit load, recompute the checksum over
`buffer[0 .. message_len)` and compare with the stored big-endian word; on
either failure return 0 with all out-parameters untouched. Otherwise emplace
the header bytes into the caller struct (through its byte image), copy
`min(*pdl, *pdl_ptr)` bytes of parameter data from offset 25, update `*pdl`,
and return `*message_len_ptr + 2`. -/
def rdm_read (drv : DmxDriver) (header : Option RdmHeader) (pdl : Option Nat)
    (pd : Option ByteBuf) : ReadResult :=
  let buf := drv.buffer
  if u16le buf 0 ≠ (RDM_SC ||| (RDM_SUB_SC <<< 8)) then ⟨0, header, pdl, pd⟩
  else
    let ml := byteAt buf 2
    if sumBytes buf 0 ml % 65536 ≠ bswap16 (u16le buf ml) then ⟨0, header, pdl, pd⟩
    else
      let header' := header.map fun h =>
        bytesToHeader (pd_emplace (headerToBytes h) 24 headerFormat buf 513 true).1
      let pdl_wire := byteAt buf 24
      let cpy := match pdl with
        | none => pdl_wire
        | some p => if p > pdl_wire then pdl_wire else p
      let pd' := pd.map fun d => copyBytes d 0 buf 25 cpy
      let pdl' := pdl.map fun _ => cpy
      ⟨byteAt buf 2 + 2, header', pdl', pd'⟩

/-- Source `rdm_ack_t`: the typed outcome reported to the caller. `err` is the
low-level receive error (`0` = OK), `type` one of the
`RDM_RESPONSE_TYPE_*` classifications, `num` the decoded payload. -/
structure RdmAck where
  err : Nat
  type : Nat
  num : Nat
deriving DecidableEq, Repr

/-- The environment of one transaction: what the bus and the HAL deliver.
`recv_err` and `recv_size` are the `dmx_packet_t` fields of `dmx_receive`,
`recv_buffer` the inbound frame that lands in the shared port buffer, and
`recv_raw` the raw slots handed out by `dmx_read` for discovery. -/
structure DmxEnv where
  recv_err : Nat
  recv_size : Nat
  recv_buffer : ByteBuf
  recv_raw : ByteBuf

/-- Modelled from the spec: `dmx_receive` is not under `src/`. Per §6 it
blocks for a complete inbound frame or a timeout; the inbound bytes land in
the shared tx/rx port buffer (§3, §5) and the packet carries `err` and a
size. -/
def dmx_receive (drv : DmxDriver) (env : DmxEnv) : DmxDriver × Nat × Nat :=
  ({ drv with buffer := env.recv_buffer }, env.recv_size, env.recv_err)

/-- Modelled from the spec: `rdm_driver_get_uid` is not under `src/`; per
§4.E it fetches the own UID of the port. -/
def rdm_driver_get_uid (drv : DmxDriver) : RdmUid := drv.uid

/-- Modelled from the spec: `pdMS_TO_TICKS` (FreeRTOS) converts milliseconds
to scheduler ticks; the tick rate is the default 100 Hz. -/
def pdMS_TO_TICKS (ms : Nat) : Nat := ms * 100 / 1000

/-- The argument checks of `rdm_request` (its `DMX_CHECK` chain, §4.E
preconditions), evaluated before any state is touched. -/
def rdm_request_checks (h : RdmHeader) (pdl_in : Nat) (pd_in : Option ByteBuf)
    (pdl_out : Option Nat) (pd_out : Option ByteBuf) : Bool :=
  (pd_in.isSome || pdl_in == 0) &&
  (pd_out.isSome || pdl_out.isNone || pdl_out == some 0) &&
  !uid_is_null h.dest_uid &&
  !uid_is_broadcast h.src_uid &&
  (h.cc == RDM_CC_DISC_COMMAND || h.cc == RDM_CC_GET_COMMAND ||
    h.cc == RDM_CC_SET_COMMAND) &&
  (h.sub_device < 513 ||
    (h.sub_device == RDM_SUB_DEVICE_ALL && h.cc != RDM_CC_GET_COMMAND))

/-- Source `response_expected` of `rdm_request`: true unless the destination is a
broadcast, except that a broadcast `DISC_UNIQUE_BRANCH` discovery does expect
responses. -/
def response_expected (h : RdmHeader) : Bool :=
  !uid_is_broadcast h.dest_uid ||
    (h.pid == RDM_PID_DISC_UNIQUE_BRANCH && h.cc == RDM_CC_DISC_COMMAND)

/-- The complete outcome of one `rdm_request` call: the return value, the
final driver state, the (mutated) caller header, the two out-parameters and
the ack struct, plus an observation of the HAL interaction: `sent` records
the `dmx_send` call (size and buffer snapshot), `received` that `dmx_receive`
ran, `waited` that `dmx_wait_sent` ran. -/
structure RequestResult where
  ret : Nat
  drv : DmxDriver
  header : Option RdmHeader
  pdl_out : Option Nat
  pd_out : Option ByteBuf
  ack : Option RdmAck
  sent : Option (Nat × ByteBuf)
  received : Bool
  waited : Bool

/-- The header normalization of `rdm_request` (§4.E): default `port_id` to
`dmx_num + 1`, fetch the port UID for a null `src_uid`, take `tn` from the
port under the critical section, zero `message_count`. -/
def rdm_normalize (dmx_num : Nat) (drv : DmxDriver) (h0 : RdmHeader) :
    RdmHeader :=
  let h1 := if h0.port_id = 0 then { h0 with port_id := dmx_num + 1 } else h0
  let h2 := if uid_is_null h1.src_uid then
      { h1 with src_uid := rdm_driver_get_uid drv } else h1
  { h2 with tn := drv.tn, message_count := 0 }

/-- The transmit/receive phase of `rdm_request`, after the argument checks
and header normalization (`h3` is the normalized header): `rdm_write` and
`dmx_send`; then either the no-response path (`ack = {NONE, 0}`,
`dmx_wait_sent`, return the written size) or the receive path with the
non-discovery response validation/classification or the discovery EUID
decode, exactly following the source. `decoded` for `ACK_TIMER` /
`NACK_REASON` reads the first two bytes of the caller `pd_out` buffer
big-endian (a NULL `pd_out` there would be a C crash; modelled as zeros,
unreachable in the claims). -/
def rdm_request_body (dmx_num : Nat) (drv : DmxDriver) (env : DmxEnv)
    (h3 : RdmHeader) (pdl_in : Nat) (pd_in : Option ByteBuf)
    (pdl_out : Option Nat) (pd_out : Option ByteBuf) (ack : Option RdmAck) :
    RequestResult :=
  let w := rdm_write drv (some h3) pdl_in pd_in
  let size0 := w.1
  let drv1 := w.2
  let sent := some (size0, drv1.buffer)
  if response_expected h3 then
    let rcv := dmx_receive drv1 env
    let drv2 := rcv.1
    let size1 := rcv.2.1
    let ack1 := ack.map fun a => { a with err := rcv.2.2 }
    if rcv.2.2 ≠ 0 then
      ⟨size1, drv2, some h3, pdl_out, pd_out,
        ack1.map fun a => { a with type := RDM_RESPONSE_TYPE_INVALID, num := 0 },
        sent, true, false⟩
    else if h3.pid ≠ RDM_PID_DISC_UNIQUE_BRANCH then
      let req := h3
      let rr := rdm_read drv2 (some h3) pdl_out pd_out
      let hdr := rr.header.getD h3
      let response_type :=
        if rr.ret = 0 then RDM_RESPONSE_TYPE_INVALID
        else if hdr.response_type ≠ RDM_RESPONSE_TYPE_ACK ∧
            hdr.response_type ≠ RDM_RESPONSE_TYPE_ACK_TIMER ∧
            hdr.response_type ≠ RDM_RESPONSE_TYPE_NACK_REASON ∧
            hdr.response_type ≠ RDM_RESPONSE_TYPE_ACK_OVERFLOW then
          RDM_RESPONSE_TYPE_INVALID
        else if (req.cc : Int) ≠ (hdr.cc : Int) - 1 ∨ req.pid ≠ hdr.pid ∨
            req.tn ≠ hdr.tn ∨
            uid_is_target hdr.src_uid req.dest_uid = false ∨
            uid_is_eq hdr.dest_uid req.src_uid = false then
          RDM_RESPONSE_TYPE_INVALID
        else hdr.response_type
      let pdBytes := (rr.pd.getD zeroBuf)
      let decoded :=
        if response_type = RDM_RESPONSE_TYPE_ACK then size1
        else if response_type = RDM_RESPONSE_TYPE_ACK_TIMER then
          pdMS_TO_TICKS (bswap16 (u16le pdBytes 0) * 10)
        else if response_type = RDM_RESPONSE_TYPE_NACK_REASON then
          bswap16 (u16le pdBytes 0)
        else 0
      ⟨size1, drv2, some hdr, rr.pdl, rr.pd,
        ack1.map fun a => { a with type := response_type, num := decoded },
        sent, true, false⟩
    else
      let size2 := if size1 > 24 then 24 else size1
      let euid := env.recv_raw
      match uid_decode euid size2 with
      | none =>
        ⟨size2, drv2, some h3, pdl_out, pd_out,
          ack1.map fun a => { a with type := RDM_RESPONSE_TYPE_INVALID, num := 0 },
          sent, true, false⟩
      | some du =>
        let h4 := { h3 with
          src_uid := du.1
          dest_uid := RDM_UID_NULL
          tn := 0
          port_id := RDM_RESPONSE_TYPE_ACK
          message_count := 0
          sub_device := RDM_SUB_DEVICE_ROOT
          cc := RDM_CC_DISC_COMMAND_RESPONSE
          pid := RDM_PID_DISC_UNIQUE_BRANCH }
        ⟨du.2, drv2, some h4, pdl_out, pd_out,
          ack1.map fun a => { a with type := RDM_RESPONSE_TYPE_ACK, num := 0 },
          sent, true, false⟩
  else
    ⟨size0, drv1, some h3, pdl_out, pd_out,
      ack.map fun a => { a with type := RDM_RESPONSE_TYPE_NONE, num := 0 },
      sent, false, true⟩

/-- Source `rdm_request(dmx_num, header, pdl_in, pd_in, pdl_out, pd_out, ack)`: the
`DMX_CHECK` argument chain (returning 0 with nothing transmitted and all
out-parameters untouched), then normalization and the transmit/receive body
above. -/
def rdm_request (dmx_num : Nat) (drv : DmxDriver) (env : DmxEnv)
    (header : Option RdmHeader) (pdl_in : Nat) (pd_in : Option ByteBuf)
    (pdl_out : Option Nat) (pd_out : Option ByteBuf) (ack : Option RdmAck) :
    RequestResult :=
  match header with
  | none => ⟨0, drv, header, pdl_out, pd_out, ack, none, false, false⟩
  | some h0 =>
    if ¬rdm_request_checks h0 pdl_in pd_in pdl_out pd_out then
      ⟨0, drv, header, pdl_out, pd_out, ack, none, false, false⟩
    else
      rdm_request_body dmx_num drv env (rdm_normalize dmx_num drv h0) pdl_in
        pd_in pdl_out pd_out ack

/-- Build a byte buffer from a list (zero beyond the end). -/
def bufOfList (l : List Nat) : ByteBuf := fun i => l.getD i 0

/-- A freshly installed idle port: zeroed buffer, not sending, RTS outbound. -/
def drvZero : DmxDriver := ⟨zeroBuf, false, 0, 0, 0, ⟨0x6B6B, 0x0A0B0C0D⟩⟩


/-- The NACK_REASON response frame of the C3 scenario, laid out the way
`rdm_read` expects it (`pdl` slot at offset 24, pd at 25, `message_len`
`0x18 + pdl`, checksum big-endian at `buffer[message_len]`): response to a GET
of pid 0x0060 from controller `0x0001:0x00000002` to device
`0xFFFE:0x00C2C2C2`, `tn = 7`, `response_type = NACK_REASON = 0x03`,
`pdl = 2`, pd = `00 05` (NACK reason 5). -/
def frameC3 : ByteBuf := bufOfList
  [0xCC, 0x01, 0x1A,
   0x00, 0x01, 0x00, 0x00, 0x00, 0x02,
   0xFF, 0xFE, 0x00, 0xC2, 0xC2, 0xC2,
   0x07, 0x03, 0x00, 0x00, 0x00, 0x21, 0x00, 0x60,
   0x00, 0x02, 0x00, 0x05, 0xBA]

/-- The outstanding request of the C3 scenario. -/
def hdrC3 : RdmHeader := ⟨0, 0, 0, ⟨0xFFFE, 0x00C2C2C2⟩, ⟨1, 2⟩, 0, 1, 0, 0,
  RDM_CC_GET_COMMAND, 0x60, 0⟩


/-- The request of the C4 scenario: a broadcast SET, so no response is
expected. -/
def hdrC4 : RdmHeader := ⟨0, 0, 0, ⟨0xFFFF, 0xFFFFFFFF⟩, ⟨1, 2⟩, 0, 1, 0, 0,
  RDM_CC_SET_COMMAND, 0x60, 0⟩

/-- An inert environment (no inbound traffic); the no-response paths never
consult it. -/
def envIdle : DmxEnv := ⟨0, 0, zeroBuf, zeroBuf⟩

/-- The header of the C1/C2 serialization scenario (spec §8, scenario 2). -/
def hdrC2 : RdmHeader := ⟨0, 0, 0, ⟨1, 2⟩, ⟨3, 4⟩, 5, 1, 0, 0, 0x20, 0x60, 0⟩

/-- No characters of the format are string or optional-UID fields. -/
def noAV (fmt : List Char) : Prop :=
  ∀ c ∈ fmt, c ≠ 'a' ∧ c ≠ 'A' ∧ c ≠ 'v' ∧ c ≠ 'V'

/-- All preconditions of `rdm_request` as the claim lists them: a non-null
header plus its `DMX_CHECK` chain. -/
def rdm_request_ok (header : Option RdmHeader) (pdl_in : Nat)
    (pd_in : Option ByteBuf) (pdl_out : Option Nat) (pd_out : Option ByteBuf) :
    Bool :=
  match header with
  | none => false
  | some h => rdm_request_checks h pdl_in pd_in pdl_out pd_out

theorem byteAt_setByte (b : ByteBuf) (i v j : Nat) :
    byteAt (setByte b i v) j = if j = i then v % 256 else byteAt b j := by
  unfold byteAt setByte
  split <;> rfl

theorem byteAt_lt (b : ByteBuf) (i : Nat) : byteAt b i < 256 :=
  Nat.mod_lt _ (by norm_num)

theorem land_of_lor_aa_55 (x : Nat) : (x ||| 0xaa) &&& (x ||| 0x55) = x := by
  apply Nat.eq_of_testBit_eq
  intro i
  have hc : (Nat.testBit 0xaa i && Nat.testBit 0x55 i) = false := by
    have h0 : ((0xaa : Nat) &&& 0x55) = 0 := by decide
    have := Nat.testBit_land 0xaa 0x55 i
    rw [h0] at this
    simpa using this.symm
  rw [Nat.testBit_land, Nat.testBit_lor, Nat.testBit_lor]
  cases hx : Nat.testBit x i <;> simp [hx, hc]

theorem lor_byte_lt (x y : Nat) (hx : x < 256) (hy : y < 256) : x ||| y < 256 := by
  have hx8 : x < 2 ^ 8 := by norm_num at *; omega
  have hy8 : y < 2 ^ 8 := by norm_num at *; omega
  have : x ||| y < 2 ^ 8 := Nat.bitwise_lt hx8 hy8
  norm_num at this
  omega

/-- Recovery of one doubled discovery byte: the AND of `x | 0xAA` and
`x | 0x55` is `x` again, stated in the exact shape the decode computation
takes for a byte `y % 256`. -/
theorem recoverByte (y : Nat) :
    ((y % 256 ||| 0xaa) % 256) &&& ((y % 256 ||| 0x55) % 256) = y % 256 := by
  have hx : y % 256 < 256 := Nat.mod_lt _ (by norm_num)
  rw [Nat.mod_eq_of_lt (lor_byte_lt _ _ hx (by norm_num)),
    Nat.mod_eq_of_lt (lor_byte_lt _ _ hx (by norm_num)),
    land_of_lor_aa_55]

/-- Claim C5: for every UID `u` and preamble length `p ∈ [0, 7]`,
`uid_encode(u, p)` produces `p + 17` bytes, and `uid_decode` on that buffer
with size `p + 17` succeeds, recovers exactly `u`, and reports `p + 17` bytes
consumed — for every preamble length in the range. -/
theorem uid_codec_roundtrip (dst : ByteBuf) (u : RdmUid) (p : Nat)
    (hp : p ≤ 7) (hman : u.man_id < 65536) (hdev : u.dev_id < 4294967296) :
    (uid_encode dst u p).2 = p + 17 ∧
      uid_decode (uid_encode dst u p).1 (p + 17) = some (u, p + 17) := by
  obtain ⟨m, d⟩ := u
  simp only [RdmUid.mk.injEq] at *
  constructor
  · simp only [uid_encode]
    have hp7 : ¬(p > 7) := by omega
    simp [hp7]
  · interval_cases p <;>
      (simp [uid_encode, uid_decode, get_preamble_len, gplLoop, writePre,
        byteAt_setByte, RDM_PREAMBLE, RDM_DELIMITER, recoverByte,
        Prod.ext_iff]
       omega)

theorem uid_codec_roundtrip_witness :
    (7 : Nat) ≤ 7 ∧
      (uid_encode zeroBuf ⟨0x5AFE, 0x12345678⟩ 7).2 = 7 + 17 ∧
      uid_decode (uid_encode zeroBuf ⟨0x5AFE, 0x12345678⟩ 7).1 (7 + 17) =
        some (⟨0x5AFE, 0x12345678⟩, 7 + 17) := by
  have h := uid_codec_roundtrip zeroBuf ⟨0x5AFE, 0x12345678⟩ 7 (by decide)
    (by decide) (by decide)
  exact ⟨by decide, h.1, h.2⟩

/-- Claim C9: whenever `rdm_param_parse` rejects the format (result below 1,
covering both the 0-returning branches and the `-1` branch), `pd_emplace`
returns 0 and leaves the destination buffer untouched. -/
theorem pd_emplace_rejects_bad_format (fmt : List Char) (dst : ByteBuf)
    (dcap : Nat) (src : ByteBuf) (scap : Nat) (en : Bool)
    (h : (rdm_param_parse fmt).1 < 1) :
    pd_emplace dst dcap fmt src scap en = (dst, 0) := by
  simp only [pd_emplace]
  rw [if_pos h]

theorem pd_emplace_rejects_bad_format_witness :
    (rdm_param_parse "ab".toList).1 = -1 ∧
      pd_emplace zeroBuf 10 "ab".toList zeroBuf 10 true = (zeroBuf, 0) :=
  ⟨by decide,
    pd_emplace_rejects_bad_format "ab".toList zeroBuf 10 zeroBuf 10 true
      (by decide)⟩

theorem bswap16_u16le (b : ByteBuf) (i : Nat) :
    bswap16 (u16le b i) = 256 * byteAt b i + byteAt b (i + 1) := by
  have h0 := byteAt_lt b i
  have h1 := byteAt_lt b (i + 1)
  unfold bswap16 u16le
  omega

/-- Claim C10: when the buffer does not start with the start code `0xCC` and
sub-start code `0x01`, or the checksum recomputed over
`buffer[0 .. message_len)` differs from the big-endian word stored at
`buffer[message_len]`, `rdm_read` returns 0 and leaves the header, pdl and pd
out-parameters completely unmodified. -/
theorem rdm_read_error_atomic (drv : DmxDriver) (header : Option RdmHeader)
    (pdl : Option Nat) (pd : Option ByteBuf)
    (h : ¬(byteAt drv.buffer 0 = 0xCC ∧ byteAt drv.buffer 1 = 0x01) ∨
      sumBytes drv.buffer 0 (byteAt drv.buffer 2) % 65536 ≠
        256 * byteAt drv.buffer (byteAt drv.buffer 2) +
          byteAt drv.buffer (byteAt drv.buffer 2 + 1)) :
    rdm_read drv header pdl pd = ⟨0, header, pdl, pd⟩ := by
  have hb0 := byteAt_lt drv.buffer 0
  have hb1 := byteAt_lt drv.buffer 1
  simp only [rdm_read]
  split_ifs with h1 h2
  · rfl
  · rfl
  · exfalso
    rw [not_not] at h1
    have hsc : byteAt drv.buffer 0 = 0xCC ∧ byteAt drv.buffer 1 = 0x01 := by
      have hv : (RDM_SC ||| (RDM_SUB_SC <<< 8)) = 460 := by decide
      rw [hv] at h1
      have h1' : byteAt drv.buffer 0 + 256 * byteAt drv.buffer 1 = 460 := by
        simpa [u16le] using h1
      omega
    rw [not_not, bswap16_u16le] at h2
    rcases h with ha | hb
    · exact ha hsc
    · exact hb h2

theorem rdm_read_error_atomic_witness :
    ¬(byteAt drvZero.buffer 0 = 0xCC ∧ byteAt drvZero.buffer 1 = 0x01) ∧
      rdm_read drvZero none none none = ⟨0, none, none, none⟩ :=
  ⟨by decide, rdm_read_error_atomic drvZero none none none (Or.inl (by decide))⟩

/-- Claim C1 (code bug): `rdm_write` on an idle zeroed port with a well-formed
header and `pdl = 2` returns 2, but never emits the start code — the header
serialization format `#cc01#18huubbbwbw` is rejected by `rdm_param_parse`
(first literal not `h`-terminated), so `pd_emplace` writes nothing — and the
subsequent `rdm_read` of the very same buffer fails the start-code check,
returning 0 with all out-parameters untouched instead of the written size and
the recovered header and pd. -/
theorem write_then_read_fails_roundtrip :
    (rdm_write drvZero (some hdrC2) 2 (some (bufOfList [0xAB, 0xCD]))).1 = 2 ∧
      byteAt (rdm_write drvZero (some hdrC2) 2
        (some (bufOfList [0xAB, 0xCD]))).2.buffer 0 = 0 ∧
      (rdm_read (rdm_write drvZero (some hdrC2) 2
        (some (bufOfList [0xAB, 0xCD]))).2
        (some hdrC2) (some 231) (some zeroBuf)).ret = 0 ∧
      (rdm_read (rdm_write drvZero (some hdrC2) 2
        (some (bufOfList [0xAB, 0xCD]))).2
        (some hdrC2) (some 231) (some zeroBuf)).pdl = some 231 := by
  decide

/-- Claim C2 (code bug): serializing the scenario header through
`#cc01#18huubbbwbw` emits nothing at all — `rdm_param_parse` rejects the
format (the first integer literal `#cc01` is not terminated by `h`; the
parser stops on the second `#` and returns 0), so `pd_emplace` returns 0 and
after `rdm_write` the buffer starts with `00`, not `CC 01 18 …`. -/
theorem header_serialization_emits_nothing :
    rdm_param_parse headerFormat = (0, false) ∧
      (pd_emplace zeroBuf 513 headerFormat (headerToBytes hdrC2) 24 false).2 = 0 ∧
      byteAt (rdm_write drvZero (some hdrC2) 0 none).2.buffer 0 = 0 ∧
      byteAt (rdm_write drvZero (some hdrC2) 0 none).2.buffer 2 = 0 := by
  decide

/-- Claim C3 (code bug): a fully valid NACK_REASON response frame (matching
cc + 1, pid, tn and UIDs of the outstanding request, `pdl = 2`,
pd = `00 05`) is classified INVALID with `num = 0`, not
`{NACK_REASON, num = 5}`: `rdm_read` cannot deserialize the response header
(same rejected format string), so the caller header still holds the request
fields and the `req.cc != header->cc - 1` validation fails. -/
theorem nack_response_classified_invalid :
    (rdm_request 0 { drvZero with tn := 7 } ⟨0, 28, frameC3, zeroBuf⟩
        (some hdrC3) 0 none (some 2) (some zeroBuf) (some ⟨0, 0, 0⟩)).ack =
      some ⟨0, RDM_RESPONSE_TYPE_INVALID, 0⟩ ∧
      RDM_RESPONSE_TYPE_INVALID ≠ RDM_RESPONSE_TYPE_NACK_REASON ∧
      (rdm_request 0 { drvZero with tn := 7 } ⟨0, 28, frameC3, zeroBuf⟩
        (some hdrC3) 0 none (some 2) (some zeroBuf) (some ⟨0, 0, 0⟩)).ret = 28 := by
  decide

/-- Claim C4 (code bug): after a successful `rdm_request` (broadcast SET, so
the call completes without a response) on a port whose stored `tn` is 37, the
port `tn` is still 37 — `rdm_request` reads `driver->rdm.tn` under the
critical section but nothing ever increments it — and the transmitted frame
does not carry the transaction number either: its `tn` slot (offset 15) is 0
because the header serialization format is rejected by `rdm_param_parse`.
The logical header does receive `tn = 37`. -/
theorem request_does_not_increment_tn :
    (rdm_request 0 { drvZero with tn := 37 } envIdle (some hdrC4) 0 none none
        none (some ⟨0, 0, 0⟩)).drv.tn = 37 ∧
      ((rdm_request 0 { drvZero with tn := 37 } envIdle (some hdrC4) 0 none none
        none (some ⟨0, 0, 0⟩)).header.map RdmHeader.tn) = some 37 ∧
      ((rdm_request 0 { drvZero with tn := 37 } envIdle (some hdrC4) 0 none none
        none (some ⟨0, 0, 0⟩)).sent.map Prod.fst) = some 2 ∧
      ((rdm_request 0 { drvZero with tn := 37 } envIdle (some hdrC4) 0 none none
        none (some ⟨0, 0, 0⟩)).sent.map fun s => byteAt s.2 15) = some 0 := by
  decide

/-- Claim C7: `rdm_request` returns 0 and transmits nothing (no `dmx_send`,
no state change, all out-parameters untouched) unless all of its
preconditions hold: header non-null; `pd_in` non-null or `pdl_in = 0`;
`pd_out` non-null or `pdl_out` absent/zero; `dest_uid` not null; `src_uid`
not broadcast; `cc` one of DISC/GET/SET_COMMAND; and `sub_device < 513` or
`sub_device = ALL` with `cc ≠ GET_COMMAND`. -/
theorem rdm_request_guard (dmx_num : Nat) (drv : DmxDriver) (env : DmxEnv)
    (header : Option RdmHeader) (pdl_in : Nat) (pd_in : Option ByteBuf)
    (pdl_out : Option Nat) (pd_out : Option ByteBuf) (ack : Option RdmAck)
    (h : rdm_request_ok header pdl_in pd_in pdl_out pd_out = false) :
    rdm_request dmx_num drv env header pdl_in pd_in pdl_out pd_out ack =
      ⟨0, drv, header, pdl_out, pd_out, ack, none, false, false⟩ := by
  cases header with
  | none => rfl
  | some h0 =>
      have hc : rdm_request_checks h0 pdl_in pd_in pdl_out pd_out = false := h
      simp [rdm_request, hc]

theorem rdm_request_guard_witness :
    rdm_request_ok (some { hdrC2 with sub_device := 600 }) 0 none none none =
        false ∧
      (rdm_request 0 drvZero envIdle (some { hdrC2 with sub_device := 600 }) 0
        none none none none).ret = 0 ∧
      (rdm_request 0 drvZero envIdle (some { hdrC2 with sub_device := 600 }) 0
        none none none none).sent = none := by
  have h := rdm_request_guard 0 drvZero envIdle
    (some { hdrC2 with sub_device := 600 }) 0 none none none none (by decide)
  exact ⟨by decide, by rw [h], by rw [h]⟩

theorem response_expected_normalize (dmx_num : Nat) (drv : DmxDriver)
    (h0 : RdmHeader) :
    response_expected (rdm_normalize dmx_num drv h0) = response_expected h0 := by
  unfold rdm_normalize
  split <;> (dsimp only []; split <;> rfl)

theorem rdm_request_eq_body (dmx_num : Nat) (drv : DmxDriver) (env : DmxEnv)
    (h : RdmHeader) (pdl_in : Nat) (pd_in : Option ByteBuf)
    (pdl_out : Option Nat) (pd_out : Option ByteBuf) (ack : Option RdmAck)
    (hok : rdm_request_checks h pdl_in pd_in pdl_out pd_out = true) :
    rdm_request dmx_num drv env (some h) pdl_in pd_in pdl_out pd_out ack =
      rdm_request_body dmx_num drv env (rdm_normalize dmx_num drv h) pdl_in
        pd_in pdl_out pd_out ack := by
  simp [rdm_request, hok]

theorem rdm_request_body_not_expected (dmx_num : Nat) (drv : DmxDriver)
    (env : DmxEnv) (h3 : RdmHeader) (pdl_in : Nat) (pd_in : Option ByteBuf)
    (pdl_out : Option Nat) (pd_out : Option ByteBuf) (ack : Option RdmAck)
    (hr : response_expected h3 = false) :
    rdm_request_body dmx_num drv env h3 pdl_in pd_in pdl_out pd_out ack =
      ⟨(rdm_write drv (some h3) pdl_in pd_in).1,
        (rdm_write drv (some h3) pdl_in pd_in).2, some h3, pdl_out, pd_out,
        ack.map (fun a => { a with type := RDM_RESPONSE_TYPE_NONE, num := 0 }),
        some ((rdm_write drv (some h3) pdl_in pd_in).1,
          (rdm_write drv (some h3) pdl_in pd_in).2.buffer), false, true⟩ := by
  simp only [rdm_request_body, hr, Bool.false_eq_true, if_false]

theorem rdm_request_body_expected_received (dmx_num : Nat) (drv : DmxDriver)
    (env : DmxEnv) (h3 : RdmHeader) (pdl_in : Nat) (pd_in : Option ByteBuf)
    (pdl_out : Option Nat) (pd_out : Option ByteBuf) (ack : Option RdmAck)
    (hr : response_expected h3 = true) :
    (rdm_request_body dmx_num drv env h3 pdl_in pd_in pdl_out pd_out
      ack).received = true := by
  simp only [rdm_request_body, hr, if_true]
  split
  · rfl
  · split
    · rfl
    · split <;> rfl

/-- Claim C8: under the preconditions, `rdm_request` awaits a response
exactly when the destination is not broadcast or the request is a broadcast
`DISC_UNIQUE_BRANCH` discovery (`pid = DISC_UNIQUE_BRANCH` with
`cc = DISC_COMMAND`); when no response is expected it waits for send
completion, sets `ack = {type: NONE, num: 0}` (leaving `ack->err` untouched),
and returns the number of bytes written — the size handed to `dmx_send`. -/
theorem rdm_request_response_mode (dmx_num : Nat) (drv : DmxDriver)
    (env : DmxEnv) (h : RdmHeader) (pdl_in : Nat) (pd_in : Option ByteBuf)
    (pdl_out : Option Nat) (pd_out : Option ByteBuf) (ack : Option RdmAck)
    (hok : rdm_request_checks h pdl_in pd_in pdl_out pd_out = true) :
    ((rdm_request dmx_num drv env (some h) pdl_in pd_in pdl_out pd_out
        ack).received = true ↔
      (uid_is_broadcast h.dest_uid = false ∨
        (h.pid = RDM_PID_DISC_UNIQUE_BRANCH ∧ h.cc = RDM_CC_DISC_COMMAND))) ∧
      (response_expected h = false →
        (rdm_request dmx_num drv env (some h) pdl_in pd_in pdl_out pd_out
            ack).waited = true ∧
          (rdm_request dmx_num drv env (some h) pdl_in pd_in pdl_out pd_out
              ack).ack =
            ack.map (fun a =>
              { a with type := RDM_RESPONSE_TYPE_NONE, num := 0 }) ∧
          (rdm_request dmx_num drv env (some h) pdl_in pd_in pdl_out pd_out
              ack).sent.isSome = true ∧
          (rdm_request dmx_num drv env (some h) pdl_in pd_in pdl_out pd_out
              ack).ret =
            ((rdm_request dmx_num drv env (some h) pdl_in pd_in pdl_out pd_out
              ack).sent.map Prod.fst).getD 0) := by
  rw [rdm_request_eq_body dmx_num drv env h pdl_in pd_in pdl_out pd_out ack hok]
  have hre := response_expected_normalize dmx_num drv h
  have hform : (response_expected h = true) ↔
      (uid_is_broadcast h.dest_uid = false ∨
        (h.pid = RDM_PID_DISC_UNIQUE_BRANCH ∧ h.cc = RDM_CC_DISC_COMMAND)) := by
    unfold response_expected
    cases hb : uid_is_broadcast h.dest_uid <;>
      simp [hb, RDM_PID_DISC_UNIQUE_BRANCH, RDM_CC_DISC_COMMAND]
  constructor
  · rw [← hform]
    cases hr : response_expected h with
    | true =>
        simp only [iff_true]
        exact rdm_request_body_expected_received dmx_num drv env _ pdl_in pd_in
          pdl_out pd_out ack (hre.trans hr)
    | false =>
        rw [rdm_request_body_not_expected dmx_num drv env _ pdl_in pd_in
          pdl_out pd_out ack (hre.trans hr)]
  · intro hr
    rw [rdm_request_body_not_expected dmx_num drv env _ pdl_in pd_in pdl_out
      pd_out ack (hre.trans hr)]
    exact ⟨rfl, rfl, rfl, rfl⟩

theorem rdm_request_response_mode_witness :
    rdm_request_checks hdrC4 0 none none none = true ∧
      response_expected hdrC4 = false ∧
      (rdm_request 0 drvZero envIdle (some hdrC4) 0 none none none
        (some ⟨0, 0, 0⟩)).received = false ∧
      (rdm_request 0 drvZero envIdle (some hdrC4) 0 none none none
          (some ⟨0, 0, 0⟩)).waited = true ∧
      (rdm_request 0 drvZero envIdle (some hdrC4) 0 none none none
          (some ⟨0, 0, 0⟩)).ack = some ⟨0, RDM_RESPONSE_TYPE_NONE, 0⟩ ∧
      (rdm_request 0 drvZero envIdle (some hdrC4) 0 none none none
          (some ⟨0, 0, 0⟩)).ret =
        ((rdm_request 0 drvZero envIdle (some hdrC4) 0 none none none
          (some ⟨0, 0, 0⟩)).sent.map Prod.fst).getD 0 := by
  have H := rdm_request_response_mode 0 drvZero envIdle hdrC4 0 none none none
    (some ⟨0, 0, 0⟩) (by decide)
  have H2 := H.2 (by decide)
  refine ⟨by decide, by decide, ?_, H2.1, ?_, H2.2.2.2⟩
  · have := H.1
    by_contra hne
    have : (rdm_request 0 drvZero envIdle (some hdrC4) 0 none none none
        (some ⟨0, 0, 0⟩)).received = true := by
      cases hx : (rdm_request 0 drvZero envIdle (some hdrC4) 0 none none none
        (some ⟨0, 0, 0⟩)).received
      · exact absurd hx hne
      · rfl
    have hc := H.1.mp this
    revert hc
    decide
  · have := H2.2.1
    simpa using this

theorem parseLoopF_step_b (f : Nat) (c : Char) (rest : List Char) (acc : Nat)
    (sing : Bool) (hc : c = 'b' ∨ c = 'B') (hk : ¬(acc + 1 > 231)) :
    parseLoopF (f + 1) (c :: rest) acc sing = parseLoopF f rest (acc + 1) sing := by
  rcases hc with rfl | rfl <;> simp [parseLoopF, hk]

theorem passF_step_b (src : ByteBuf) (size : Nat) (en : Bool) (f : Nat)
    (c : Char) (rest : List Char) (dst : ByteBuf) (n : Nat)
    (hc : c = 'b' ∨ c = 'B') :
    passF src size en (f + 1) (c :: rest) dst n =
      passF src size en f rest (setByte dst n (byteAt src n)) (n + 1) := by
  rcases hc with rfl | rfl <;> simp [passF]

theorem parseLoopF_step_w (f : Nat) (c : Char) (rest : List Char) (acc : Nat)
    (sing : Bool) (hc : c = 'w' ∨ c = 'W') (hk : ¬(acc + 2 > 231)) :
    parseLoopF (f + 1) (c :: rest) acc sing = parseLoopF f rest (acc + 2) sing := by
  rcases hc with rfl | rfl <;> simp [parseLoopF, hk]

theorem passF_step_w (src : ByteBuf) (size : Nat) (en : Bool) (f : Nat)
    (c : Char) (rest : List Char) (dst : ByteBuf) (n : Nat)
    (hc : c = 'w' ∨ c = 'W') :
    passF src size en (f + 1) (c :: rest) dst n =
      passF src size en f rest
        (setByte (setByte dst n (byteAt src (n + 1))) (n + 1) (byteAt src n))
        (n + 2) := by
  rcases hc with rfl | rfl <;> simp [passF]

theorem parseLoopF_step_d (f : Nat) (c : Char) (rest : List Char) (acc : Nat)
    (sing : Bool) (hc : c = 'd' ∨ c = 'D') (hk : ¬(acc + 4 > 231)) :
    parseLoopF (f + 1) (c :: rest) acc sing = parseLoopF f rest (acc + 4) sing := by
  rcases hc with rfl | rfl <;> simp [parseLoopF, hk]

theorem passF_step_d (src : ByteBuf) (size : Nat) (en : Bool) (f : Nat)
    (c : Char) (rest : List Char) (dst : ByteBuf) (n : Nat)
    (hc : c = 'd' ∨ c = 'D') :
    passF src size en (f + 1) (c :: rest) dst n =
      passF src size en f rest
        (setByte (setByte (setByte (setByte dst
          n (byteAt src (n + 3))) (n + 1) (byteAt src (n + 2)))
          (n + 2) (byteAt src (n + 1))) (n + 3) (byteAt src n)) (n + 4) := by
  rcases hc with rfl | rfl <;> simp [passF]

theorem parseLoopF_step_u (f : Nat) (c : Char) (rest : List Char) (acc : Nat)
    (sing : Bool) (hc : c = 'u' ∨ c = 'U') (hk : ¬(acc + 6 > 231)) :
    parseLoopF (f + 1) (c :: rest) acc sing = parseLoopF f rest (acc + 6) sing := by
  rcases hc with rfl | rfl <;> simp [parseLoopF, hk]

theorem passF_step_u (src : ByteBuf) (size : Nat) (en : Bool) (f : Nat)
    (c : Char) (rest : List Char) (dst : ByteBuf) (n : Nat)
    (hc : c = 'u' ∨ c = 'U') :
    passF src size en (f + 1) (c :: rest) dst n =
      passF src size en f rest (uidmoveAt dst src n) (n + 6) := by
  rcases hc with rfl | rfl <;> simp [passF]

theorem parseLoopF_step_hash (f : Nat) (rest : List Char) (acc : Nat)
    (sing : Bool)
    (h16 : ¬((rest.takeWhile isHexDigitChar).length > 16))
    (hh : rest[(rest.takeWhile isHexDigitChar).length]? = some 'h' ∨
      rest[(rest.takeWhile isHexDigitChar).length]? = some 'H')
    (hk : ¬(acc + ((rest.takeWhile isHexDigitChar).length / 2 +
      (rest.takeWhile isHexDigitChar).length % 2) > 231)) :
    parseLoopF (f + 1) ('#' :: rest) acc sing =
      parseLoopF f (rest.drop ((rest.takeWhile isHexDigitChar).length + 1))
        (acc + ((rest.takeWhile isHexDigitChar).length / 2 +
          (rest.takeWhile isHexDigitChar).length % 2)) sing := by
  rcases hh with hh | hh <;> simp [parseLoopF, h16, hk, hh]

theorem passF_step_hash (src : ByteBuf) (size : Nat) (en : Bool) (f : Nat)
    (rest : List Char) (dst : ByteBuf) (n : Nat) :
    passF src size en (f + 1) ('#' :: rest) dst n =
      passF src size en f (rest.drop ((rest.takeWhile isHexDigitChar).length + 1))
        (writeLit dst n (min (hexVal (rest.takeWhile isHexDigitChar)) 2147483647)
          ((rest.takeWhile isHexDigitChar).length / 2 +
            (rest.takeWhile isHexDigitChar).length % 2))
        (n + ((rest.takeWhile isHexDigitChar).length / 2 +
          (rest.takeWhile isHexDigitChar).length % 2)) := by
  simp [passF]

theorem passF_step_skip (src : ByteBuf) (size : Nat) (en : Bool) (f : Nat)
    (c : Char) (rest : List Char) (dst : ByteBuf) (n : Nat)
    (h1 : ¬(c = 'b' ∨ c = 'B')) (h2 : ¬(c = 'w' ∨ c = 'W'))
    (h3 : ¬(c = 'd' ∨ c = 'D'))
    (h4 : ¬(c = 'u' ∨ c = 'U' ∨ c = 'v' ∨ c = 'V'))
    (h5 : ¬(c = 'a' ∨ c = 'A')) (h6 : ¬(c = '#')) :
    passF src size en (f + 1) (c :: rest) dst n =
      passF src size en f rest dst n := by
  simp [passF, h1, h2, h3, h4, h5, h6]

/-- For a format free of string and optional-UID fields that
`rdm_param_parse` accepts, one `pd_emplace` field-walk pass advances the
output offset by exactly the parsed `param_size` minus the entry accumulator,
and never ends through the optional-UID `break`. The two walks consume the
format in lockstep, so one fuel bound serves both. -/
theorem parse_pass_advance (fuel : Nat) :
    ∀ (fmt : List Char), fmt.length < fuel → noAV fmt →
      ∀ (acc : Nat) (sing : Bool), 1 ≤ (parseLoopF fuel fmt acc sing).1 →
        acc ≤ (parseLoopF fuel fmt acc sing).1.toNat ∧
        ∀ (src : ByteBuf) (size : Nat) (en : Bool) (dst : ByteBuf) (n : Nat),
          (passF src size en fuel fmt dst n).2.1 =
            n + ((parseLoopF fuel fmt acc sing).1.toNat - acc) ∧
          (passF src size en fuel fmt dst n).2.2 = false := by
  induction fuel with
  | zero => intro fmt hlen; omega
  | succ f ih =>
    intro fmt hlen hav acc sing hpos
    cases fmt with
    | nil =>
      refine ⟨by simp [parseLoopF], fun src size en dst n => ?_⟩
      simp [parseLoopF, passF]
    | cons c rest =>
      have hav' : noAV rest := fun x hx => hav x (List.mem_cons_of_mem c hx)
      have hmem := hav c (List.mem_cons_self c rest)
      have hlen' : rest.length < f := by
        simp only [List.length_cons] at hlen
        omega
      have hna : ¬(c = 'a' ∨ c = 'A') := by
        rintro (rfl | rfl) <;> simp at hmem
      have hnv : ¬(c = 'v' ∨ c = 'V') := by
        rintro (rfl | rfl) <;> simp at hmem
      by_cases hb : c = 'b' ∨ c = 'B'
      · by_cases hk : acc + 1 > 231
        · have hz : parseLoopF (f + 1) (c :: rest) acc sing = (0, sing) := by
            rcases hb with rfl | rfl <;> simp [parseLoopF, hk]
          rw [hz] at hpos
          norm_num at hpos
        · rw [parseLoopF_step_b f c rest acc sing hb hk] at hpos ⊢
          obtain ⟨ha, hp⟩ := ih rest hlen' hav' (acc + 1) sing hpos
          refine ⟨by omega, fun src size en dst n => ?_⟩
          rw [passF_step_b src size en f c rest dst n hb]
          obtain ⟨he, hbrk⟩ :=
            hp src size en (setByte dst n (byteAt src n)) (n + 1)
          exact ⟨by rw [he]; omega, hbrk⟩
      · by_cases hw : c = 'w' ∨ c = 'W'
        · by_cases hk : acc + 2 > 231
          · have hz : parseLoopF (f + 1) (c :: rest) acc sing = (0, sing) := by
              rcases hw with rfl | rfl <;> simp [parseLoopF, hk]
            rw [hz] at hpos
            norm_num at hpos
          · rw [parseLoopF_step_w f c rest acc sing hw hk] at hpos ⊢
            obtain ⟨ha, hp⟩ := ih rest hlen' hav' (acc + 2) sing hpos
            refine ⟨by omega, fun src size en dst n => ?_⟩
            rw [passF_step_w src size en f c rest dst n hw]
            obtain ⟨he, hbrk⟩ := hp src size en
              (setByte (setByte dst n (byteAt src (n + 1))) (n + 1) (byteAt src n))
              (n + 2)
            exact ⟨by rw [he]; omega, hbrk⟩
        · by_cases hd : c = 'd' ∨ c = 'D'
          · by_cases hk : acc + 4 > 231
            · have hz : parseLoopF (f + 1) (c :: rest) acc sing = (0, sing) := by
                rcases hd with rfl | rfl <;> simp [parseLoopF, hk]
              rw [hz] at hpos
              norm_num at hpos
            · rw [parseLoopF_step_d f c rest acc sing hd hk] at hpos ⊢
              obtain ⟨ha, hp⟩ := ih rest hlen' hav' (acc + 4) sing hpos
              refine ⟨by omega, fun src size en dst n => ?_⟩
              rw [passF_step_d src size en f c rest dst n hd]
              obtain ⟨he, hbrk⟩ := hp src size en
                (setByte (setByte (setByte (setByte dst
                  n (byteAt src (n + 3))) (n + 1) (byteAt src (n + 2)))
                  (n + 2) (byteAt src (n + 1))) (n + 3) (byteAt src n)) (n + 4)
              exact ⟨by rw [he]; omega, hbrk⟩
          · by_cases hu : c = 'u' ∨ c = 'U'
            · by_cases hk : acc + 6 > 231
              · have hz : parseLoopF (f + 1) (c :: rest) acc sing = (0, sing) := by
                  rcases hu with rfl | rfl <;> simp [parseLoopF, hk]
                rw [hz] at hpos
                norm_num at hpos
              · rw [parseLoopF_step_u f c rest acc sing hu hk] at hpos ⊢
                obtain ⟨ha, hp⟩ := ih rest hlen' hav' (acc + 6) sing hpos
                refine ⟨by omega, fun src size en dst n => ?_⟩
                rw [passF_step_u src size en f c rest dst n hu]
                obtain ⟨he, hbrk⟩ := hp src size en (uidmoveAt dst src n) (n + 6)
                exact ⟨by rw [he]; omega, hbrk⟩
            · by_cases hhash : c = '#'
              · subst hhash
                by_cases h16 : (rest.takeWhile isHexDigitChar).length > 16
                · have hz : parseLoopF (f + 1) ('#' :: rest) acc sing = (0, sing) := by
                    simp [parseLoopF, h16]
                  rw [hz] at hpos
                  norm_num at hpos
                · by_cases hh : rest[(rest.takeWhile isHexDigitChar).length]? =
                      some 'h' ∨
                      rest[(rest.takeWhile isHexDigitChar).length]? = some 'H'
                  · by_cases hk : acc + ((rest.takeWhile isHexDigitChar).length / 2 +
                        (rest.takeWhile isHexDigitChar).length % 2) > 231
                    · have hz : parseLoopF (f + 1) ('#' :: rest) acc sing =
                          (0, sing) := by
                        rcases hh with hh | hh <;> simp [parseLoopF, h16, hh, hk]
                      rw [hz] at hpos
                      norm_num at hpos
                    · rw [parseLoopF_step_hash f rest acc sing h16 hh hk]
                        at hpos ⊢
                      have hlen2 :
                          (rest.drop ((rest.takeWhile isHexDigitChar).length + 1)).length < f := by
                        rw [List.length_drop]
                        omega
                      have hav2 : noAV
                          (rest.drop ((rest.takeWhile isHexDigitChar).length + 1)) :=
                        fun x hx => hav' x (List.mem_of_mem_drop hx)
                      obtain ⟨ha, hp⟩ := ih _ hlen2 hav2
                        (acc + ((rest.takeWhile isHexDigitChar).length / 2 +
                          (rest.takeWhile isHexDigitChar).length % 2)) sing hpos
                      refine ⟨by omega, fun src size en dst n => ?_⟩
                      rw [passF_step_hash src size en f rest dst n]
                      obtain ⟨he, hbrk⟩ := hp src size en
                        (writeLit dst n
                          (min (hexVal (rest.takeWhile isHexDigitChar)) 2147483647)
                          ((rest.takeWhile isHexDigitChar).length / 2 +
                            (rest.takeWhile isHexDigitChar).length % 2))
                        (n + ((rest.takeWhile isHexDigitChar).length / 2 +
                          (rest.takeWhile isHexDigitChar).length % 2))
                      exact ⟨by rw [he]; omega, hbrk⟩
                  · have hz : parseLoopF (f + 1) ('#' :: rest) acc sing =
                        (0, sing) := by
                      rw [not_or] at hh
                      simp [parseLoopF, h16, hh.1, hh.2]
                    rw [hz] at hpos
                    norm_num at hpos
              · by_cases hds : c = '$'
                · subst hds
                  by_cases hrest : rest = []
                  · subst hrest
                    obtain ⟨f', rfl⟩ : ∃ f', f = f' + 1 := ⟨f - 1, by omega⟩
                    by_cases hk : acc + 0 > 231
                    · have hz : parseLoopF (f' + 1 + 1) ['$'] acc sing =
                          (0, true) := by
                        simp [parseLoopF, hk]
                        omega
                      rw [hz] at hpos
                      norm_num at hpos
                    · have hz : parseLoopF (f' + 1 + 1) ['$'] acc sing =
                          ((acc : Int), true) := by
                        simp [parseLoopF, hk]
                        omega
                      rw [hz] at hpos ⊢
                      refine ⟨by simp, fun src size en dst n => ?_⟩
                      have hzp : passF src size en (f' + 1 + 1) ['$'] dst n =
                          (dst, n, false) := by
                        simp [passF]
                      rw [hzp]
                      simp
                  · have hz : parseLoopF (f + 1) ('$' :: rest) acc sing =
                        (0, sing) := by
                      simp [parseLoopF, hrest]
                    rw [hz] at hpos
                    norm_num at hpos
                · have hz : parseLoopF (f + 1) (c :: rest) acc sing = (0, sing) := by
                    simp [parseLoopF, hb, hw, hd, hu, hnv, hna, hhash, hds]
                  rw [hz] at hpos
                  norm_num at hpos

theorem emplaceIters_advance (src : ByteBuf) (size : Nat) (en : Bool)
    (fmt : List Char) (d : Nat)
    (hstep : ∀ (dst : ByteBuf) (n : Nat),
      (passF src size en (fmt.length + 1) fmt dst n).2.1 = n + d) :
    ∀ (k : Nat) (dst : ByteBuf) (n : Nat),
      (emplaceIters src size en fmt k dst n).2 = n + k * d := by
  intro k
  induction k with
  | zero => intro dst n; simp [emplaceIters]
  | succ k ihk =>
      intro dst n
      simp only [emplaceIters]
      rw [ihk, hstep]
      ring

/-- Claim C6 (amended): for every syntactically valid format string with no
`a`/`A` and no `v`/`V` fields (no string fields, hence no variable-length
fields and no optional-UID early stop), and for both values of
`encode_nulls`, `pd_emplace` emits exactly `param_size × n_iters` bytes,
where `n_iters` is 1 for a singleton format and
`min(dest_size, min(src_size, 231)) / param_size` otherwise. -/
theorem pd_emplace_length (fmt : List Char) (hav : noAV fmt) (ps : Int)
    (sing : Bool) (hp : rdm_param_parse fmt = (ps, sing)) (h1 : 1 ≤ ps)
    (dst : ByteBuf) (dcap : Nat) (src : ByteBuf) (scap : Nat) (en : Bool) :
    (pd_emplace dst dcap fmt src scap en).2 =
      ps.toNat * (if sing then 1 else min dcap (min scap 231) / ps.toNat) := by
  have hpp : parseLoopF (fmt.length + 1) fmt 0 fmt.isEmpty = (ps, sing) := hp
  have hpos : 1 ≤ (parseLoopF (fmt.length + 1) fmt 0 fmt.isEmpty).1 := by
    rw [hpp]
    exact h1
  obtain ⟨ha0, hp0⟩ :=
    parse_pass_advance (fmt.length + 1) fmt (Nat.lt_succ_self _) hav 0
      fmt.isEmpty hpos
  have hd : (parseLoopF (fmt.length + 1) fmt 0 fmt.isEmpty).1.toNat - 0 =
      ps.toNat := by
    rw [hpp]
    omega
  have hstep : ∀ (dstx : ByteBuf) (n : Nat),
      (passF src (min dcap (min scap 231)) en (fmt.length + 1) fmt dstx
        n).2.1 = n + ps.toNat := by
    intro dstx n
    have := (hp0 src (min dcap (min scap 231)) en dstx n).1
    rw [hd] at this
    exact this
  simp only [pd_emplace, rdm_param_parse, hpp]
  rw [if_neg (by omega)]
  rw [emplaceIters_advance src (min dcap (min scap 231)) en fmt ps.toNat hstep]
  ring

theorem pd_emplace_length_witness :
    noAV "wb".toList ∧ rdm_param_parse "wb".toList = (3, false) ∧
      (pd_emplace zeroBuf 7 "wb".toList zeroBuf 7 false).2 = 6 ∧
      (pd_emplace zeroBuf 7 "wb".toList zeroBuf 7 true).2 = 6 := by
  have hav : noAV "wb".toList := by
    unfold noAV
    decide
  have h0 := pd_emplace_length "wb".toList hav 3 false (by decide)
    (by decide) zeroBuf 7 zeroBuf 7 false
  have h1 := pd_emplace_length "wb".toList hav 3 false (by decide)
    (by decide) zeroBuf 7 zeroBuf 7 true
  exact ⟨hav, by decide, by rw [h0]; decide, by rw [h1]; decide⟩

/-- Claim C6 counterexample: the fixed-length string format `a2$` is
syntactically valid (`param_size = 2`, not a singleton), has no
variable-length field and no optional UID, yet with `encode_nulls = true` and
4-byte buffers `pd_emplace` returns 6, not `param_size × n_iters = 2 × 2 = 4`:
each `a` pass also writes a null terminator (at `destination + len`) and
counts it. -/
theorem pd_emplace_fixed_string_counterexample :
    rdm_param_parse "a2$".toList = (2, false) ∧
      (pd_emplace zeroBuf 4 "a2$".toList (bufOfList [65, 66, 67, 68]) 4
        true).2 = 6 ∧
      (pd_emplace zeroBuf 4 "a2$".toList (bufOfList [65, 66, 67, 68]) 4
          true).2 ≠ 2 * (min 4 (min 4 231) / 2) ∧
      byteAt (pd_emplace zeroBuf 4 "a2$".toList (bufOfList [65, 66, 67, 68]) 4
        true).1 2 = 0 := by
  decide
